import Mathlib

/-!
Verification of the `hardcoded-disablers` aggregator (src/aggregator/main.go).

The aggregator is a scatter-gather orchestrator: it validates an inbound
`{"text": ...}` request, issues one HTTP POST to each of 8 downstream
dependencies concurrently, merges every result (or error) into a shared
`AnalyseResponse` under a mutex, and always returns the aggregate with a
`degraded` flag set exactly when some dependency call failed.

The shallow embedding below mirrors the Go source:

* JSON documents are modelled by the inductive `Json`; Go's `float64` JSON
  numbers are modelled by `ℚ` (float rounding is not modelled); Go's
  `interface{}` type assertions become matches on `Json` constructors.
* An object decoded into a Go map keeps the *last* occurrence of a
  duplicated key, mirrored by `lookupLast`.
* Each goroutine's interaction with the network is summarised by a
  `Transport` value (transport failure, or a status code plus a body);
  `callMicroservice` processes it exactly as the Go function does.
* The nondeterministic order in which the 8 goroutines acquire the mutex is
  an explicit `order : List Dep` parameter (a permutation of `depOrder`);
  `runMerges` folds the per-dependency merge section over that order.
-/

/-- JSON values.  Numbers are `ℚ` (Go decodes every JSON number to
`float64`; rational arithmetic stands in for binary floating point). -/
inductive Json where
  | null : Json
  | bool : Bool → Json
  | num : ℚ → Json
  | str : String → Json
  | arr : List Json → Json
  | obj : List (String × Json) → Json

/-- Go `map[string]interface{}` built by `encoding/json`: for duplicated
keys the later value overwrites the earlier one. -/
def lookupLast (fields : List (String × Json)) (k : String) : Option Json :=
  fields.foldl (fun acc p => if p.1 = k then some p.2 else acc) none

/-- Go type assertion `.(string)`. -/
def asString : Json → Option String
  | .str s => some s
  | _ => none

/-- Go type assertion `.(float64)` (every JSON number decodes to float64). -/
def asNum : Json → Option ℚ
  | .num q => some q
  | _ => none

/-- Go type assertion `.(bool)`. -/
def asBool : Json → Option Bool
  | .bool b => some b
  | _ => none

/-- Go type assertion `.(map[string]interface\x7b\x7d)`. -/
def asObj : Json → Option (List (String × Json))
  | .obj f => some f
  | _ => none

/-- Go conversion `int(x)` applied to a `float64`: truncation toward zero. -/
def goInt (q : ℚ) : Int :=
  q.num.tdiv q.den

/-- The aggregator's `OpResponse` struct (main.go lines 24-28).  Note that
it has `Key`, `Value`, `CacheHit` and **no** `Error` field. -/
structure OpResponse where
  key : String
  value : Json
  cacheHit : Bool

/-- The eight downstream dependencies, in the order their goroutines are
spawned in `aggregateAnalysis`. -/
inductive Dep where
  | normalizer | transliterator | slugger | tokenizer
  | counter | hasher | entropy | palindrome
deriving DecidableEq, Repr

/-- Goroutine-spawn order of the 8 dependency calls in `aggregateAnalysis`. -/
def depOrder : List Dep :=
  [.normalizer, .transliterator, .slugger, .tokenizer,
   .counter, .hasher, .entropy, .palindrome]

/-- `AnalyseResponse` struct (main.go lines 34-47). -/
@[ext]
structure AnalyseResponse where
  normalized : String
  transliterated : String
  slug : String
  tokens : Int
  unique_words : Int
  bigram_count : Int
  char_count : Nat
  unique_chars : Int
  hash64 : String
  entropy : ℚ
  palindrome : Bool
  degraded : Bool
deriving DecidableEq, Repr

/-- The response value `aggregateAnalysis` starts from (main.go lines
138-141): `CharCount` is the input's byte length (`len(text)`), `Degraded`
is false, every other field is Go's zero value. -/
def initResponse (text : String) : AnalyseResponse :=
  { normalized := "", transliterated := "", slug := "", tokens := 0,
    unique_words := 0, bigram_count := 0, char_count := text.utf8ByteSize,
    unique_chars := 0, hash64 := "", entropy := 0, palindrome := false,
    degraded := false }

/-- `if uniqueWords, ok := data["unique_words"].(float64); ok { ... }`
(main.go lines 220-222). -/
def setUniqueWords (fields : List (String × Json)) (r : AnalyseResponse) :
    AnalyseResponse :=
  match (lookupLast fields "unique_words").bind asNum with
  | some q => { r with unique_words := goInt q }
  | none => r

/-- `if bigramCount, ok := data["bigram_count"].(float64); ok { ... }`
(main.go lines 223-225). -/
def setBigramCount (fields : List (String × Json)) (r : AnalyseResponse) :
    AnalyseResponse :=
  match (lookupLast fields "bigram_count").bind asNum with
  | some q => { r with bigram_count := goInt q }
  | none => r

/-- `if uniqueChars, ok := data["unique_chars"].(float64); ok { ... }`
(main.go lines 226-228). -/
def setUniqueChars (fields : List (String × Json)) (r : AnalyseResponse) :
    AnalyseResponse :=
  match (lookupLast fields "unique_chars").bind asNum with
  | some q => { r with unique_chars := goInt q }
  | none => r

/-- The response-assembly step of one goroutine on a *successful* call:
the type assertion on `resp.Value` and, when it succeeds, the write of the
dependency's target field(s) (main.go lines 149-154, 166-171, 183-188,
200-205, 217-230, 242-247, 259-264, 276-281). -/
def applyValue (d : Dep) (v : Json) (r : AnalyseResponse) : AnalyseResponse :=
  match d with
  | .normalizer =>
      match v with
      | .str s => { r with normalized := s }
      | _ => r
  | .transliterator =>
      match v with
      | .str s => { r with transliterated := s }
      | _ => r
  | .slugger =>
      match v with
      | .str s => { r with slug := s }
      | _ => r
  | .tokenizer =>
      match v with
      | .num q => { r with tokens := goInt q }
      | _ => r
  | .counter =>
      match v with
      | .obj fields => setUniqueChars fields (setBigramCount fields (setUniqueWords fields r))
      | _ => r
  | .hasher =>
      match v with
      | .str s => { r with hash64 := s }
      | _ => r
  | .entropy =>
      match v with
      | .num q => { r with entropy := q }
      | _ => r
  | .palindrome =>
      match v with
      | .bool b => { r with palindrome := b }
      | _ => r

/-- Reasons `callMicroservice` can fail (main.go lines 103-132). -/
inductive CallError where
  | transport
  | status (code : Nat)
  | readBody
  | decode
deriving DecidableEq, Repr

/-- The critical section of one goroutine: on success, assemble the value;
on error, append `fmt.Errorf("<dep>: %w", err)` to the shared error list. -/
def mergeDep (d : Dep) (o : Except CallError OpResponse)
    (s : AnalyseResponse × List (Dep × CallError)) :
    AnalyseResponse × List (Dep × CallError) :=
  match o with
  | .ok resp => (applyValue d resp.value s.1, s.2)
  | .error e => (s.1, s.2 ++ [(d, e)])

/-- The whole merge phase of `aggregateAnalysis`: the goroutines'
critical sections execute in some serial `order` (the mutex serialises
them); `outcome d` is the result of dependency `d`'s call. -/
def runMerges (outcome : Dep → Except CallError OpResponse)
    (order : List Dep) (text : String) :
    AnalyseResponse × List (Dep × CallError) :=
  order.foldl (fun s d => mergeDep d (outcome d) s) (initResponse text, [])

/-- `aggregateAnalysis` (main.go lines 134-297): after the `wg.Wait()`
barrier, set `Degraded` iff some error was recorded, and return the
response together with the function's error return — which is literally
`nil` (`return response, nil`). -/
def aggregateAnalysis (text : String) (order : List Dep)
    (outcome : Dep → Except CallError OpResponse) :
    AnalyseResponse × Option String :=
  let s := runMerges outcome order text
  (if s.2.isEmpty then s.1 else { s.1 with degraded := true }, none)

/-! ### Dependency client (`callMicroservice`, main.go lines 103-132) -/

/-- The op-contract request struct marshalled by the client (main.go lines
15-22).  Both fields carry `omitempty`, so a `nil` pointer is omitted. -/
structure OpDeps where
  normalized : Option String
  transliterated : Option String
  tokens : List String

structure OpRequest where
  text : Option String
  deps : Option OpDeps

/-- `json.Marshal` of `OpDeps` with its `omitempty` tags. -/
def marshalOpDeps (d : OpDeps) : Json :=
  Json.obj
    ((match d.normalized with
      | some s => [("normalized", Json.str s)]
      | none => []) ++
     (match d.transliterated with
      | some s => [("transliterated", Json.str s)]
      | none => []) ++
     (if d.tokens.isEmpty then []
      else [("tokens", Json.arr (d.tokens.map Json.str))]))

/-- `json.Marshal` of `OpRequest` with its `omitempty` tags: a non-nil
`Text` pointer is encoded (even when it points at `""`), a nil `Deps`
pointer is omitted. -/
def marshalOpRequest (req : OpRequest) : Json :=
  Json.obj
    ((match req.text with
      | some t => [("text", Json.str t)]
      | none => []) ++
     (match req.deps with
      | some d => [("deps", marshalOpDeps d)]
      | none => []))

/-- One HTTP request as issued by `callMicroservice`: `client.Post(url +
"/op", "application/json", body)` with `http.Client\x7bTimeout: 10 *
time.Second\x7d`. -/
structure HttpRequest where
  method : String
  url : String
  contentType : String
  body : Json
  timeoutSeconds : Nat

/-- The single request `callMicroservice url text` issues. -/
def callRequest (url text : String) : HttpRequest :=
  { method := "POST", url := url ++ "/op", contentType := "application/json",
    body := marshalOpRequest { text := some text, deps := none },
    timeoutSeconds := 10 }

/-- `json.Unmarshal(body, &opResp)` into the aggregator's `OpResponse`
(which has fields `key`, `value`, `cache_hit` and nothing else — unknown
members such as `error` are ignored by `encoding/json`).  A JSON `null`
body leaves the struct at its zero value without error; a wrongly-typed
known member or a non-object body is a decode error. -/
def decodeOpResponse (j : Json) : Option OpResponse :=
  match j with
  | .null => some { key := "", value := Json.null, cacheHit := false }
  | .obj fields =>
      (match lookupLast fields "key" with
       | none => some ""
       | some (.str s) => some s
       | some .null => some ""
       | some _ => none).bind fun k =>
      (match lookupLast fields "cache_hit" with
       | none => some false
       | some (.bool b) => some b
       | some .null => some false
       | some _ => none).bind fun c =>
      some { key := k, value := (lookupLast fields "value").getD Json.null,
             cacheHit := c }
  | _ => none

/-- What the network did for one call, as observed by the client:
a transport-level failure (connection error or the 10-second timeout), or
a response with a status code and a body.  The body is `.error ()` when
`io.ReadAll` fails, `.ok none` when the bytes are not valid JSON, and
`.ok (some j)` when they parse as the document `j`. -/
inductive Transport where
  | transportFailure : Transport
  | respond (status : Nat) (body : Except Unit (Option Json)) : Transport

/-- `callMicroservice` (main.go lines 103-132) minus the actual I/O:
fail on transport error, then on a non-200 status, then on a body-read
error, then on a body that does not unmarshal into `OpResponse`;
otherwise return the decoded envelope. -/
def callMicroservice (t : Transport) : Except CallError OpResponse :=
  match t with
  | .transportFailure => .error .transport
  | .respond status body =>
      if status ≠ 200 then .error (.status status)
      else
        match body with
        | .error _ => .error .readBody
        | .ok none => .error .decode
        | .ok (some j) =>
            match decodeOpResponse j with
            | some r => .ok r
            | none => .error .decode

/-! ### Configuration and the scatter phase -/

/-- `getEnv` (main.go lines 60-65); the process environment is modelled as
a total map with `""` for unset variables. -/
def getEnv (env : String → String) (key defaultValue : String) : String :=
  if env key ≠ "" then env key else defaultValue

/-- The base URL of each dependency (main.go lines 50-58). -/
def serviceURL (env : String → String) : Dep → String
  | .normalizer =>
      getEnv env "NORMALIZER_URL" "http://normalizer.disablers.svc.cluster.local:8080"
  | .transliterator =>
      getEnv env "TRANSLITERATOR_URL" "http://transliterator.disablers.svc.cluster.local:8082"
  | .slugger =>
      getEnv env "SLUGGER_URL" "http://slugger.disablers.svc.cluster.local:8083"
  | .tokenizer =>
      getEnv env "TOKENIZER_URL" "http://tokenizer.disablers.svc.cluster.local:8084"
  | .counter =>
      getEnv env "COUNTER_URL" "http://counter.disablers.svc.cluster.local:8085"
  | .hasher =>
      getEnv env "HASHER_URL" "http://hasher.disablers.svc.cluster.local:8086"
  | .entropy =>
      getEnv env "ENTROPY_URL" "http://entropy.disablers.svc.cluster.local:8087"
  | .palindrome =>
      getEnv env "PALINDROME_URL" "http://palindrome.disablers.svc.cluster.local:8088"

/-- The HTTP requests the scatter phase of `aggregateAnalysis` issues:
one `callMicroservice(<url_d>, text)` per spawned goroutine, i.e. exactly
one request per dependency in `depOrder`, each with the raw input text. -/
def aggregateCalls (env : String → String) (text : String) : List HttpRequest :=
  depOrder.map fun d => callRequest (serviceURL env d) text

/-! ### Request boundary (`handleAnalyze`, main.go lines 75-101) -/

/-- `AnalyseRequest` (main.go lines 30-32). -/
structure AnalyseRequest where
  text : String

/-- `json.NewDecoder(r.Body).Decode(&req)` for `AnalyseRequest`: only an
object (or `null`) decodes; a missing or `null` `text` member leaves the
zero value `""`; a non-string `text` member is a decode error. -/
def decodeAnalyseRequest (j : Json) : Option AnalyseRequest :=
  match j with
  | .null => some { text := "" }
  | .obj fields =>
      match lookupLast fields "text" with
      | none => some { text := "" }
      | some .null => some { text := "" }
      | some (.str s) => some { text := s }
      | some _ => none
  | _ => none

/-- The four ways `handleAnalyze` answers. -/
inductive HandlerResult where
  | methodNotAllowed
  | badRequest (msg : String)
  | internalServerError
  | ok (resp : AnalyseResponse)
deriving DecidableEq

/-- `handleAnalyze` (main.go lines 75-101).  The inbound body is `none`
when it is not syntactically valid JSON.  Besides the result, the model
returns the list of dependency HTTP requests issued while handling —
empty whenever validation fails, since `aggregateAnalysis` is only
reached after all three checks pass. -/
def handleAnalyze (env : String → String) (method : String)
    (body : Option Json) (order : List Dep) (transport : Dep → Transport) :
    HandlerResult × List HttpRequest :=
  if method ≠ "POST" then (.methodNotAllowed, [])
  else
    match body with
    | none => (.badRequest "Invalid JSON", [])
    | some j =>
        match decodeAnalyseRequest j with
        | none => (.badRequest "Invalid JSON", [])
        | some req =>
            if req.text = "" then (.badRequest "Text field is required", [])
            else
              let result := aggregateAnalysis req.text order
                (fun d => callMicroservice (transport d))
              (match result.2 with
               | some _ => .internalServerError
               | none => .ok result.1,
               aggregateCalls env req.text)

/-- The expected JSON shape of each dependency's `value` (the type
assertion its goroutine performs). -/
def shapeMatches (d : Dep) (v : Json) : Bool :=
  match d with
  | .normalizer | .transliterator | .slugger | .hasher =>
      match v with | .str _ => true | _ => false
  | .tokenizer | .entropy =>
      match v with | .num _ => true | _ => false
  | .counter =>
      match v with | .obj _ => true | _ => false
  | .palindrome =>
      match v with | .bool _ => true | _ => false

/-- The envelope the downstream services of this repository produce on an
application-level failure (e.g. the transliterator's `handleOp`): HTTP
200, `value` null, and an `error` member — which the aggregator's
`OpResponse` cannot even represent. -/
def failureEnvelope (key msg : String) : Json :=
  Json.obj [("key", Json.str key), ("value", Json.null),
            ("cache_hit", Json.bool false), ("error", Json.str msg)]

/-! ### Decomposition of the merge fold -/

/-- The response-only effect of one goroutine's critical section. -/
def applyOutcome (d : Dep) (o : Except CallError OpResponse)
    (r : AnalyseResponse) : AnalyseResponse :=
  match o with
  | .ok resp => applyValue d resp.value r
  | .error _ => r

/-- The error-list contribution of one goroutine's critical section. -/
def errOf (outcome : Dep → Except CallError OpResponse) (d : Dep) :
    Option (Dep × CallError) :=
  match outcome d with
  | .error e => some (d, e)
  | .ok _ => none

/-- The `value` a successful call delivered, if any. -/
def okValue : Except CallError OpResponse → Option Json
  | .ok resp => some resp.value
  | .error _ => none

lemma mergeFold_split (outcome : Dep → Except CallError OpResponse) :
    ∀ (order : List Dep) (s : AnalyseResponse × List (Dep × CallError)),
      order.foldl (fun s d => mergeDep d (outcome d) s) s =
        (order.foldl (fun r d => applyOutcome d (outcome d) r) s.1,
         s.2 ++ order.filterMap (errOf outcome)) := by
  intro order
  induction order with
  | nil => intro s; simp
  | cons d rest ih =>
      intro s
      rw [List.foldl_cons, List.foldl_cons, ih, List.filterMap_cons]
      rcases h : outcome d with e | resp <;>
        simp [mergeDep, applyOutcome, errOf, h, List.append_assoc]

/-- `runMerges` splits into an error-free fold on the response and the
list of failures, in arrival order. -/
lemma runMerges_decompose (outcome : Dep → Except CallError OpResponse)
    (order : List Dep) (text : String) :
    runMerges outcome order text =
      (order.foldl (fun r d => applyOutcome d (outcome d) r) (initResponse text),
       order.filterMap (errOf outcome)) := by
  simpa [runMerges] using mergeFold_split outcome order (initResponse text, [])

/-! ### Field-wise characterisation of the assembler -/

lemma setUniqueWords_spec (f : List (String × Json)) (r : AnalyseResponse) :
    setUniqueWords f r =
      { r with unique_words :=
          (((lookupLast f "unique_words").bind asNum).map goInt).getD r.unique_words } := by
  rcases h : (lookupLast f "unique_words").bind asNum with _ | q <;>
    simp [setUniqueWords, h]

lemma setBigramCount_spec (f : List (String × Json)) (r : AnalyseResponse) :
    setBigramCount f r =
      { r with bigram_count :=
          (((lookupLast f "bigram_count").bind asNum).map goInt).getD r.bigram_count } := by
  rcases h : (lookupLast f "bigram_count").bind asNum with _ | q <;>
    simp [setBigramCount, h]

lemma setUniqueChars_spec (f : List (String × Json)) (r : AnalyseResponse) :
    setUniqueChars f r =
      { r with unique_chars :=
          (((lookupLast f "unique_chars").bind asNum).map goInt).getD r.unique_chars } := by
  rcases h : (lookupLast f "unique_chars").bind asNum with _ | q <;>
    simp [setUniqueChars, h]

lemma applyValue_normalized (d : Dep) (v : Json) (r : AnalyseResponse) :
    (applyValue d v r).normalized =
      if d = Dep.normalizer then (asString v).getD r.normalized
      else r.normalized := by
  cases d <;> cases v <;>
    simp [applyValue, asString, setUniqueWords_spec, setBigramCount_spec,
          setUniqueChars_spec]

lemma applyValue_transliterated (d : Dep) (v : Json) (r : AnalyseResponse) :
    (applyValue d v r).transliterated =
      if d = Dep.transliterator then (asString v).getD r.transliterated
      else r.transliterated := by
  cases d <;> cases v <;>
    simp [applyValue, asString, setUniqueWords_spec, setBigramCount_spec,
          setUniqueChars_spec]

lemma applyValue_slug (d : Dep) (v : Json) (r : AnalyseResponse) :
    (applyValue d v r).slug =
      if d = Dep.slugger then (asString v).getD r.slug else r.slug := by
  cases d <;> cases v <;>
    simp [applyValue, asString, setUniqueWords_spec, setBigramCount_spec,
          setUniqueChars_spec]

lemma applyValue_tokens (d : Dep) (v : Json) (r : AnalyseResponse) :
    (applyValue d v r).tokens =
      if d = Dep.tokenizer then ((asNum v).map goInt).getD r.tokens
      else r.tokens := by
  cases d <;> cases v <;>
    simp [applyValue, asNum, setUniqueWords_spec, setBigramCount_spec,
          setUniqueChars_spec]

lemma applyValue_unique_words (d : Dep) (v : Json) (r : AnalyseResponse) :
    (applyValue d v r).unique_words =
      if d = Dep.counter then
        (((asObj v).bind fun f => (lookupLast f "unique_words").bind asNum).map
          goInt).getD r.unique_words
      else r.unique_words := by
  cases d <;> cases v <;>
    simp [applyValue, asObj, setUniqueWords_spec, setBigramCount_spec,
          setUniqueChars_spec]

lemma applyValue_bigram_count (d : Dep) (v : Json) (r : AnalyseResponse) :
    (applyValue d v r).bigram_count =
      if d = Dep.counter then
        (((asObj v).bind fun f => (lookupLast f "bigram_count").bind asNum).map
          goInt).getD r.bigram_count
      else r.bigram_count := by
  cases d <;> cases v <;>
    simp [applyValue, asObj, setUniqueWords_spec, setBigramCount_spec,
          setUniqueChars_spec]

lemma applyValue_unique_chars (d : Dep) (v : Json) (r : AnalyseResponse) :
    (applyValue d v r).unique_chars =
      if d = Dep.counter then
        (((asObj v).bind fun f => (lookupLast f "unique_chars").bind asNum).map
          goInt).getD r.unique_chars
      else r.unique_chars := by
  cases d <;> cases v <;>
    simp [applyValue, asObj, setUniqueWords_spec, setBigramCount_spec,
          setUniqueChars_spec]

lemma applyValue_char_count (d : Dep) (v : Json) (r : AnalyseResponse) :
    (applyValue d v r).char_count = r.char_count := by
  cases d <;> cases v <;>
    simp [applyValue, setUniqueWords_spec, setBigramCount_spec,
          setUniqueChars_spec]

lemma applyValue_hash64 (d : Dep) (v : Json) (r : AnalyseResponse) :
    (applyValue d v r).hash64 =
      if d = Dep.hasher then (asString v).getD r.hash64 else r.hash64 := by
  cases d <;> cases v <;>
    simp [applyValue, asString, setUniqueWords_spec, setBigramCount_spec,
          setUniqueChars_spec]

lemma applyValue_entropy (d : Dep) (v : Json) (r : AnalyseResponse) :
    (applyValue d v r).entropy =
      if d = Dep.entropy then (asNum v).getD r.entropy else r.entropy := by
  cases d <;> cases v <;>
    simp [applyValue, asNum, setUniqueWords_spec, setBigramCount_spec,
          setUniqueChars_spec]

lemma applyValue_palindrome (d : Dep) (v : Json) (r : AnalyseResponse) :
    (applyValue d v r).palindrome =
      if d = Dep.palindrome then (asBool v).getD r.palindrome
      else r.palindrome := by
  cases d <;> cases v <;>
    simp [applyValue, asBool, setUniqueWords_spec, setBigramCount_spec,
          setUniqueChars_spec]

lemma applyValue_degraded (d : Dep) (v : Json) (r : AnalyseResponse) :
    (applyValue d v r).degraded = r.degraded := by
  cases d <;> cases v <;>
    simp [applyValue, setUniqueWords_spec, setBigramCount_spec,
          setUniqueChars_spec]

lemma applyOutcome_normalized (d : Dep) (o : Except CallError OpResponse)
    (r : AnalyseResponse) :
    (applyOutcome d o r).normalized =
      if d = Dep.normalizer then ((okValue o).bind asString).getD r.normalized
      else r.normalized := by
  cases o <;> simp [applyOutcome, okValue, applyValue_normalized]

lemma applyOutcome_transliterated (d : Dep) (o : Except CallError OpResponse)
    (r : AnalyseResponse) :
    (applyOutcome d o r).transliterated =
      if d = Dep.transliterator then
        ((okValue o).bind asString).getD r.transliterated
      else r.transliterated := by
  cases o <;> simp [applyOutcome, okValue, applyValue_transliterated]

lemma applyOutcome_slug (d : Dep) (o : Except CallError OpResponse)
    (r : AnalyseResponse) :
    (applyOutcome d o r).slug =
      if d = Dep.slugger then ((okValue o).bind asString).getD r.slug
      else r.slug := by
  cases o <;> simp [applyOutcome, okValue, applyValue_slug]

lemma applyOutcome_tokens (d : Dep) (o : Except CallError OpResponse)
    (r : AnalyseResponse) :
    (applyOutcome d o r).tokens =
      if d = Dep.tokenizer then (((okValue o).bind asNum).map goInt).getD r.tokens
      else r.tokens := by
  cases o <;> simp [applyOutcome, okValue, applyValue_tokens]

lemma applyOutcome_unique_words (d : Dep) (o : Except CallError OpResponse)
    (r : AnalyseResponse) :
    (applyOutcome d o r).unique_words =
      if d = Dep.counter then
        ((((okValue o).bind asObj).bind fun f =>
            (lookupLast f "unique_words").bind asNum).map goInt).getD
          r.unique_words
      else r.unique_words := by
  cases o <;> simp [applyOutcome, okValue, applyValue_unique_words]

lemma applyOutcome_bigram_count (d : Dep) (o : Except CallError OpResponse)
    (r : AnalyseResponse) :
    (applyOutcome d o r).bigram_count =
      if d = Dep.counter then
        ((((okValue o).bind asObj).bind fun f =>
            (lookupLast f "bigram_count").bind asNum).map goInt).getD
          r.bigram_count
      else r.bigram_count := by
  cases o <;> simp [applyOutcome, okValue, applyValue_bigram_count]

lemma applyOutcome_unique_chars (d : Dep) (o : Except CallError OpResponse)
    (r : AnalyseResponse) :
    (applyOutcome d o r).unique_chars =
      if d = Dep.counter then
        ((((okValue o).bind asObj).bind fun f =>
            (lookupLast f "unique_chars").bind asNum).map goInt).getD
          r.unique_chars
      else r.unique_chars := by
  cases o <;> simp [applyOutcome, okValue, applyValue_unique_chars]

lemma applyOutcome_char_count (d : Dep) (o : Except CallError OpResponse)
    (r : AnalyseResponse) :
    (applyOutcome d o r).char_count = r.char_count := by
  cases o <;> simp [applyOutcome, applyValue_char_count]

lemma applyOutcome_hash64 (d : Dep) (o : Except CallError OpResponse)
    (r : AnalyseResponse) :
    (applyOutcome d o r).hash64 =
      if d = Dep.hasher then ((okValue o).bind asString).getD r.hash64
      else r.hash64 := by
  cases o <;> simp [applyOutcome, okValue, applyValue_hash64]

lemma applyOutcome_entropy (d : Dep) (o : Except CallError OpResponse)
    (r : AnalyseResponse) :
    (applyOutcome d o r).entropy =
      if d = Dep.entropy then ((okValue o).bind asNum).getD r.entropy
      else r.entropy := by
  cases o <;> simp [applyOutcome, okValue, applyValue_entropy]

lemma applyOutcome_palindrome (d : Dep) (o : Except CallError OpResponse)
    (r : AnalyseResponse) :
    (applyOutcome d o r).palindrome =
      if d = Dep.palindrome then ((okValue o).bind asBool).getD r.palindrome
      else r.palindrome := by
  cases o <;> simp [applyOutcome, okValue, applyValue_palindrome]

lemma applyOutcome_degraded (d : Dep) (o : Except CallError OpResponse)
    (r : AnalyseResponse) :
    (applyOutcome d o r).degraded = r.degraded := by
  cases o <;> simp [applyOutcome, applyValue_degraded]

/-- Two guarded single-owner updates over distinct owners commute. -/
lemma ite_update_comm {α : Type _} {d₁ d₂ dF : Dep} (h : d₁ ≠ d₂)
    (g₁ g₂ : α → α) (x : α) :
    (if d₁ = dF then g₁ (if d₂ = dF then g₂ x else x)
     else if d₂ = dF then g₂ x else x) =
    (if d₂ = dF then g₂ (if d₁ = dF then g₁ x else x)
     else if d₁ = dF then g₁ x else x) := by
  by_cases h₁ : d₁ = dF
  · have h₂ : d₂ ≠ dF := fun h₂ => h (h₁.trans h₂.symm)
    simp [h₁, h₂]
  · by_cases h₂ : d₂ = dF <;> simp [h₁, h₂]

/-- Critical sections of two *distinct* dependencies commute: they write
disjoint sets of response fields. -/
lemma applyOutcome_comm (d₁ d₂ : Dep) (h : d₁ ≠ d₂)
    (o₁ o₂ : Except CallError OpResponse) (r : AnalyseResponse) :
    applyOutcome d₁ o₁ (applyOutcome d₂ o₂ r) =
      applyOutcome d₂ o₂ (applyOutcome d₁ o₁ r) := by
  apply AnalyseResponse.ext <;>
    simp only [applyOutcome_normalized, applyOutcome_transliterated,
      applyOutcome_slug, applyOutcome_tokens, applyOutcome_unique_words,
      applyOutcome_bigram_count, applyOutcome_char_count,
      applyOutcome_unique_chars, applyOutcome_hash64, applyOutcome_entropy,
      applyOutcome_palindrome, applyOutcome_degraded] <;>
    first
      | rfl
      | exact ite_update_comm h _ _ _

/-- Folding a function over two permuted duplicate-free lists gives the
same result as soon as the function commutes on distinct elements. -/
lemma foldl_perm_of_nodup {α β : Type _} (f : β → α → β)
    (hc : ∀ a b, a ≠ b → ∀ c, f (f c a) b = f (f c b) a) :
    ∀ {l₁ l₂ : List α}, l₁.Perm l₂ → l₁.Nodup → ∀ b, l₁.foldl f b = l₂.foldl f b := by
  intro l₁ l₂ p
  induction p with
  | nil => intro _ b; rfl
  | cons a _ ih =>
      intro hnd b
      simp only [List.foldl_cons]
      exact ih (List.Nodup.of_cons hnd) (f b a)
  | swap a b l =>
      intro hnd c
      simp only [List.foldl_cons]
      have hba : b ≠ a := by
        simp only [List.nodup_cons, List.mem_cons] at hnd
        exact fun e => hnd.1 (Or.inl e)
      rw [hc b a hba c]
  | trans p₁ _ ih₁ ih₂ =>
      intro hnd b
      exact (ih₁ hnd b).trans (ih₂ (p₁.nodup hnd) b)

lemma depOrder_nodup : depOrder.Nodup := by decide

/-- The response part of the merge phase does not depend on the order in
which the goroutines reach the mutex. -/
lemma respFold_perm (outcome : Dep → Except CallError OpResponse)
    {order : List Dep} (h : order.Perm depOrder) (r0 : AnalyseResponse) :
    order.foldl (fun r d => applyOutcome d (outcome d) r) r0 =
      depOrder.foldl (fun r d => applyOutcome d (outcome d) r) r0 := by
  refine foldl_perm_of_nodup _ ?_ h (h.symm.nodup depOrder_nodup) r0
  intro a b hab c
  exact applyOutcome_comm b a (Ne.symm hab) (outcome b) (outcome a) c

/-- Closed form of the response after all 8 critical sections have run in
spawn order: every field is exactly its own dependency's contribution. -/
lemma respFold_depOrder (outcome : Dep → Except CallError OpResponse)
    (r0 : AnalyseResponse) :
    depOrder.foldl (fun r d => applyOutcome d (outcome d) r) r0 =
      { normalized := ((okValue (outcome .normalizer)).bind asString).getD r0.normalized,
        transliterated := ((okValue (outcome .transliterator)).bind asString).getD r0.transliterated,
        slug := ((okValue (outcome .slugger)).bind asString).getD r0.slug,
        tokens := (((okValue (outcome .tokenizer)).bind asNum).map goInt).getD r0.tokens,
        unique_words := ((((okValue (outcome .counter)).bind asObj).bind fun f =>
          (lookupLast f "unique_words").bind asNum).map goInt).getD r0.unique_words,
        bigram_count := ((((okValue (outcome .counter)).bind asObj).bind fun f =>
          (lookupLast f "bigram_count").bind asNum).map goInt).getD r0.bigram_count,
        char_count := r0.char_count,
        unique_chars := ((((okValue (outcome .counter)).bind asObj).bind fun f =>
          (lookupLast f "unique_chars").bind asNum).map goInt).getD r0.unique_chars,
        hash64 := ((okValue (outcome .hasher)).bind asString).getD r0.hash64,
        entropy := ((okValue (outcome .entropy)).bind asNum).getD r0.entropy,
        palindrome := ((okValue (outcome .palindrome)).bind asBool).getD r0.palindrome,
        degraded := r0.degraded } := by
  simp only [depOrder, List.foldl_cons, List.foldl_nil]
  apply AnalyseResponse.ext <;>
    simp [applyOutcome_normalized, applyOutcome_transliterated,
      applyOutcome_slug, applyOutcome_tokens, applyOutcome_unique_words,
      applyOutcome_bigram_count, applyOutcome_char_count,
      applyOutcome_unique_chars, applyOutcome_hash64, applyOutcome_entropy,
      applyOutcome_palindrome, applyOutcome_degraded]

lemma respFold_degraded (outcome : Dep → Except CallError OpResponse) :
    ∀ (order : List Dep) (r0 : AnalyseResponse),
      (order.foldl (fun r d => applyOutcome d (outcome d) r) r0).degraded =
        r0.degraded := by
  intro order
  induction order with
  | nil => intro r0; rfl
  | cons d rest ih =>
      intro r0
      simp only [List.foldl_cons]
      rw [ih, applyOutcome_degraded]

lemma respFold_char_count (outcome : Dep → Except CallError OpResponse) :
    ∀ (order : List Dep) (r0 : AnalyseResponse),
      (order.foldl (fun r d => applyOutcome d (outcome d) r) r0).char_count =
        r0.char_count := by
  intro order
  induction order with
  | nil => intro r0; rfl
  | cons d rest ih =>
      intro r0
      simp only [List.foldl_cons]
      rw [ih, applyOutcome_char_count]

/-- The full behaviour of `aggregateAnalysis` under any mutex-acquisition
order: the closed-form response, with `degraded` set exactly when an error
was recorded, and the literal `nil` error return. -/
lemma aggregateAnalysis_spec (text : String) (outcome : Dep → Except CallError OpResponse)
    {order : List Dep} (h : order.Perm depOrder) :
    aggregateAnalysis text order outcome =
      ({ normalized := ((okValue (outcome .normalizer)).bind asString).getD "",
         transliterated := ((okValue (outcome .transliterator)).bind asString).getD "",
         slug := ((okValue (outcome .slugger)).bind asString).getD "",
         tokens := (((okValue (outcome .tokenizer)).bind asNum).map goInt).getD 0,
         unique_words := ((((okValue (outcome .counter)).bind asObj).bind fun f =>
           (lookupLast f "unique_words").bind asNum).map goInt).getD 0,
         bigram_count := ((((okValue (outcome .counter)).bind asObj).bind fun f =>
           (lookupLast f "bigram_count").bind asNum).map goInt).getD 0,
         char_count := text.utf8ByteSize,
         unique_chars := ((((okValue (outcome .counter)).bind asObj).bind fun f =>
           (lookupLast f "unique_chars").bind asNum).map goInt).getD 0,
         hash64 := ((okValue (outcome .hasher)).bind asString).getD "",
         entropy := ((okValue (outcome .entropy)).bind asNum).getD 0,
         palindrome := ((okValue (outcome .palindrome)).bind asBool).getD false,
         degraded := !(order.filterMap (errOf outcome)).isEmpty }, none) := by
  have hs := runMerges_decompose outcome order text
  simp only [aggregateAnalysis, hs, respFold_perm outcome h, respFold_depOrder]
  by_cases he : (order.filterMap (errOf outcome)).isEmpty <;>
    simp [he, initResponse]

/-- `goInt` is truncation toward zero: floor for non-negative arguments,
ceiling for negative ones. -/
lemma goInt_trunc (q : ℚ) : goInt q = if 0 ≤ q then ⌊q⌋ else ⌈q⌉ := by
  by_cases h : 0 ≤ q
  · rw [if_pos h, Rat.floor_def, goInt]
    exact Int.tdiv_eq_ediv (Rat.num_nonneg.mpr h) (Int.ofNat_nonneg _)
  · rw [if_neg h, goInt]
    have hq : q ≤ 0 := le_of_not_le h
    have h1 : q.num.tdiv q.den = -((-q.num).tdiv q.den) := by
      rw [Int.neg_tdiv, neg_neg]
    have h2 : (-q.num).tdiv q.den = (-q.num) / (q.den : ℤ) :=
      Int.tdiv_eq_ediv (by simpa using Rat.num_nonpos.mpr hq) (Int.ofNat_nonneg _)
    have h3 : ⌊-q⌋ = (-q.num) / (q.den : ℤ) := by
      rw [Rat.floor_def, Rat.neg_num, Rat.neg_den]
    have h4 : ⌈q⌉ = -⌊-q⌋ := by
      rw [← Int.ceil_neg, neg_neg]
    rw [h1, h2, ← h3, ← h4]

/-- A mismatching shape makes the goroutine's field-write a no-op. -/
lemma applyValue_mismatch (d : Dep) (v : Json) (r : AnalyseResponse)
    (h : shapeMatches d v = false) : applyValue d v r = r := by
  cases d <;> cases v <;> first | rfl | simp [shapeMatches] at h

/-- Shared helper: if every dependency call succeeded — whatever the shape
of the delivered values — no error is recorded and `degraded` stays
false. -/
lemma degraded_false_of_all_ok (text : String) (order : List Dep)
    (outcome : Dep → Except CallError OpResponse)
    (h : ∀ d, ∃ resp, outcome d = .ok resp) :
    (aggregateAnalysis text order outcome).1.degraded = false := by
  have hnil : order.filterMap (errOf outcome) = [] := by
    refine List.filterMap_eq_nil_iff.mpr fun d _ => ?_
    rcases h d with ⟨resp, hr⟩
    simp [errOf, hr]
  have hs := runMerges_decompose outcome order text
  simp only [aggregateAnalysis, hs, hnil, List.isEmpty_nil, if_pos]
  rw [respFold_degraded]
  rfl

/-- C2: For every run of `aggregateAnalysis` — any per-dependency
outcomes, any order in which the goroutines reach the mutex — the
returned response has `degraded = true` iff the list of dependency errors
recorded during the merge phase is non-empty once the `wg.Wait()` barrier
completes. -/
theorem degraded_iff_errors_nonempty (text : String) (order : List Dep)
    (outcome : Dep → Except CallError OpResponse) :
    (aggregateAnalysis text order outcome).1.degraded = true ↔
      (runMerges outcome order text).2 ≠ [] := by
  have hs := runMerges_decompose outcome order text
  by_cases he : (order.filterMap (errOf outcome)).isEmpty
  · have hnil : order.filterMap (errOf outcome) = [] := List.isEmpty_iff.mp he
    simp only [aggregateAnalysis, hs, hnil, List.isEmpty_nil, if_pos]
    rw [respFold_degraded]
    simp [initResponse]
  · have hne : order.filterMap (errOf outcome) ≠ [] :=
      fun hnil => he (hnil ▸ List.isEmpty_nil)
    simp only [aggregateAnalysis, hs, he]
    simp [hne]

/-- C5: `char_count` always equals the raw UTF-8 byte length of the input
text (Go's `len(text)`), for every combination of dependency outcomes and
merge orders — it is computed locally, never from a dependency — and on
the multi-byte input `"héllo"` (5 codepoints) it is 6. -/
theorem char_count_is_byte_length (text : String) (order : List Dep)
    (outcome : Dep → Except CallError OpResponse) :
    (aggregateAnalysis text order outcome).1.char_count = text.utf8ByteSize ∧
    ("héllo" : String).utf8ByteSize = 6 ∧
    ("héllo" : String).length = 5 := by
  refine ⟨?_, by decide, by decide⟩
  have hs := runMerges_decompose outcome order text
  by_cases he : (order.filterMap (errOf outcome)).isEmpty <;>
    simp only [aggregateAnalysis, hs, he, if_true, if_false, Bool.false_eq_true] <;>
    rw [respFold_char_count] <;> rfl

/-- C3: A dependency value of the wrong JSON shape makes the merge step a
no-op — the target field keeps its previous (zero) value and **no** error
is recorded; an error entry can only come from a failed call (transport,
status or decode), and a run in which every call succeeded — whatever the
shapes delivered — never sets `degraded`. -/
theorem shape_mismatch_is_silent (d : Dep) (v : Json)
    (hmis : shapeMatches d v = false) :
    (∀ (k : String) (c : Bool) (s : AnalyseResponse × List (Dep × CallError)),
        mergeDep d (.ok { key := k, value := v, cacheHit := c }) s = s) ∧
    (∀ (o : Except CallError OpResponse) (s : AnalyseResponse × List (Dep × CallError)),
        (mergeDep d o s).2 ≠ s.2 → ∃ e, o = .error e) ∧
    (∀ (text : String) (order : List Dep)
        (outcome : Dep → Except CallError OpResponse),
        (∀ d', ∃ resp, outcome d' = .ok resp) →
        (aggregateAnalysis text order outcome).1.degraded = false) := by
  refine ⟨?_, ?_, ?_⟩
  · intro k c s
    simp [mergeDep, applyValue_mismatch d v s.1 hmis]
  · intro o s hne
    match o with
    | .ok resp => exact absurd rfl hne
    | .error e => exact ⟨e, rfl⟩
  · intro text order outcome h
    exact degraded_false_of_all_ok text order outcome h

theorem shape_mismatch_is_silent_witness :
    shapeMatches Dep.normalizer (Json.num 3) = false ∧
    mergeDep Dep.normalizer
        (.ok { key := "normalized", value := Json.num 3, cacheHit := false })
        (initResponse "ab", []) = (initResponse "ab", []) :=
  ⟨rfl, (shape_mismatch_is_silent Dep.normalizer (Json.num 3) rfl).1
    "normalized" false (initResponse "ab", [])⟩

/-- C9: A dependency that answers HTTP 200 with the repository's
application-level failure envelope — `value` null plus an `error` member —
is treated by the aggregator as a *success*: the envelope decodes exactly
as if the `error` member were absent (the aggregator's `OpResponse` has no
field for it), `callMicroservice` returns it as `ok`, the merge step
changes nothing (null matches no expected shape) and records no error,
and a run in which every dependency answers this way ends with
`degraded = false`. -/
theorem error_envelope_treated_as_success (key msg : String) :
    decodeOpResponse (failureEnvelope key msg) =
      some { key := key, value := Json.null, cacheHit := false } ∧
    decodeOpResponse (failureEnvelope key msg) =
      decodeOpResponse (Json.obj [("key", Json.str key), ("value", Json.null),
        ("cache_hit", Json.bool false)]) ∧
    callMicroservice (.respond 200 (.ok (some (failureEnvelope key msg)))) =
      .ok { key := key, value := Json.null, cacheHit := false } ∧
    (∀ (d : Dep) (s : AnalyseResponse × List (Dep × CallError)),
        mergeDep d (.ok { key := key, value := Json.null, cacheHit := false }) s = s) ∧
    (∀ (text : String) (order : List Dep),
        (aggregateAnalysis text order fun _ =>
          callMicroservice (.respond 200 (.ok (some (failureEnvelope key msg))))).1.degraded
          = false) := by
  have hdec : decodeOpResponse (failureEnvelope key msg) =
      some { key := key, value := Json.null, cacheHit := false } := by
    simp [decodeOpResponse, failureEnvelope, lookupLast]
  have hcall : callMicroservice (.respond 200 (.ok (some (failureEnvelope key msg)))) =
      .ok { key := key, value := Json.null, cacheHit := false } := by
    simp [callMicroservice, hdec]
  have hmerge : ∀ (d : Dep) (s : AnalyseResponse × List (Dep × CallError)),
      mergeDep d (.ok { key := key, value := Json.null, cacheHit := false }) s = s := by
    intro d s
    have : applyValue d Json.null s.1 = s.1 := by cases d <;> rfl
    simp [mergeDep, this]
  refine ⟨hdec, ?_, hcall, hmerge, ?_⟩
  · rw [hdec]
    simp [decodeOpResponse, lookupLast]
  · intro text order
    refine degraded_false_of_all_ok text order _ fun d => ?_
    exact ⟨_, hcall⟩

/-- C4: Every request that fails validation — wrong method, malformed
JSON, undecodable body, or a missing/empty `text` — is rejected at the
boundary (405 for non-POST, 400 otherwise) and `aggregateAnalysis` is
never reached: no dependency HTTP request is issued. -/
theorem validation_rejects_before_any_call (env : String → String)
    (order : List Dep) (transport : Dep → Transport) :
    (∀ (method : String) (body : Option Json), method ≠ "POST" →
        handleAnalyze env method body order transport = (.methodNotAllowed, [])) ∧
    handleAnalyze env "POST" none order transport = (.badRequest "Invalid JSON", []) ∧
    (∀ j : Json, decodeAnalyseRequest j = none →
        handleAnalyze env "POST" (some j) order transport = (.badRequest "Invalid JSON", [])) ∧
    (∀ (j : Json) (req : AnalyseRequest), decodeAnalyseRequest j = some req →
        req.text = "" →
        handleAnalyze env "POST" (some j) order transport =
          (.badRequest "Text field is required", [])) := by
  refine ⟨?_, ?_, ?_, ?_⟩
  · intro method body hm
    simp [handleAnalyze, hm]
  · simp [handleAnalyze]
  · intro j hdec
    simp [handleAnalyze, hdec]
  · intro j req hdec htext
    simp [handleAnalyze, hdec, htext]

theorem validation_rejects_before_any_call_witness :
    handleAnalyze (fun _ => "") "GET" none depOrder (fun _ => Transport.transportFailure) =
      (.methodNotAllowed, []) :=
  (validation_rejects_before_any_call (fun _ => "") depOrder
    (fun _ => Transport.transportFailure)).1 "GET" none (by decide)

/-- C6: The scatter phase issues exactly one HTTP request per dependency
(8 in total, no retries), each a POST to that dependency's base URL plus
`/op` with body `{"text": <raw input text>}` — the same raw text for all
8, with no `deps` member — under a 10-second per-call timeout; and a call
yields a non-error result exactly when the transport delivered a
status-200 response whose body decodes as an `OpResponse` envelope. -/
theorem one_post_per_dependency (env : String → String) (text : String) :
    aggregateCalls env text =
      depOrder.map (fun d => callRequest (serviceURL env d) text) ∧
    depOrder.Nodup ∧
    (aggregateCalls env text).length = 8 ∧
    (∀ d : Dep, callRequest (serviceURL env d) text =
        { method := "POST", url := serviceURL env d ++ "/op",
          contentType := "application/json",
          body := Json.obj [("text", Json.str text)], timeoutSeconds := 10 }) ∧
    (∀ t : Transport, (∃ resp, callMicroservice t = .ok resp) ↔
        ∃ j resp, t = .respond 200 (.ok (some j)) ∧
          decodeOpResponse j = some resp) := by
  refine ⟨rfl, by decide, rfl, ?_, ?_⟩
  · intro d
    simp [callRequest, marshalOpRequest]
  · intro t
    constructor
    · rintro ⟨resp, hok⟩
      match t with
      | .transportFailure => simp [callMicroservice] at hok
      | .respond status body =>
          by_cases hst : status = 200
          · subst hst
            match body with
            | .error u => simp [callMicroservice] at hok
            | .ok none => simp [callMicroservice] at hok
            | .ok (some j) =>
                rcases hd : decodeOpResponse j with _ | r
                · simp [callMicroservice, hd] at hok
                · exact ⟨j, r, rfl, hd⟩
          · simp [callMicroservice, hst] at hok
    · rintro ⟨j, resp, rfl, hd⟩
      exact ⟨resp, by simp [callMicroservice, hd]⟩

/-- C7: For a fixed assignment of per-dependency outcomes, the final
response does not depend on the order in which the 8 goroutines' merge
sections execute: any two serialisations of the fan-in produce the same
`AnalyseResponse`, because distinct dependencies write disjoint fields. -/
theorem merge_order_irrelevant (text : String)
    (outcome : Dep → Except CallError OpResponse) (order₁ order₂ : List Dep)
    (h₁ : order₁.Perm depOrder) (h₂ : order₂.Perm depOrder) :
    (aggregateAnalysis text order₁ outcome).1 =
      (aggregateAnalysis text order₂ outcome).1 := by
  have hperm := (h₁.trans h₂.symm).filterMap (errOf outcome)
  have hp : (order₁.filterMap (errOf outcome)).isEmpty =
      (order₂.filterMap (errOf outcome)).isEmpty := by
    rw [Bool.eq_iff_iff, List.isEmpty_iff, List.isEmpty_iff]
    exact ⟨fun e => (e ▸ hperm).symm.eq_nil, fun e => (e ▸ hperm.symm).symm.eq_nil⟩
  rw [aggregateAnalysis_spec text outcome h₁, aggregateAnalysis_spec text outcome h₂]
  simp only [hp]

theorem merge_order_irrelevant_witness :
    (aggregateAnalysis "ab" depOrder.reverse (fun _ => .error .transport)).1 =
      (aggregateAnalysis "ab" depOrder (fun _ => .error .transport)).1 :=
  merge_order_irrelevant "ab" (fun _ => .error .transport) depOrder.reverse depOrder
    (by decide) (List.Perm.refl _)

/-- C1: Once validation has passed, orchestration cannot fail: the error
return of `aggregateAnalysis` is always `nil`, so the 500 branch of
`handleAnalyze` is unreachable for every input; a validated request is
answered 200 with the full aggregate; and when all 8 calls fail the
response is exactly the zero-valued aggregate with a correct `char_count`
and `degraded = true`. -/
theorem orchestration_never_fails (text : String) (htext : text ≠ "")
    (env : String → String) {order : List Dep} (horder : order.Perm depOrder) :
    (∀ outcome : Dep → Except CallError OpResponse,
        (aggregateAnalysis text order outcome).2 = none) ∧
    (∀ (method : String) (body : Option Json) (transport : Dep → Transport),
        (handleAnalyze env method body order transport).1 ≠ .internalServerError) ∧
    (∀ transport : Dep → Transport,
        (handleAnalyze env "POST" (some (Json.obj [("text", Json.str text)]))
            order transport).1 =
          .ok (aggregateAnalysis text order
            fun d => callMicroservice (transport d)).1) ∧
    (∀ outcome : Dep → Except CallError OpResponse,
        (∀ d, ∃ e, outcome d = .error e) →
        (aggregateAnalysis text order outcome).1 =
          { initResponse text with degraded := true }) := by
  refine ⟨fun _ => rfl, ?_, ?_, ?_⟩
  · intro method body transport h
    by_cases hm : method = "POST"
    · subst hm
      match body with
      | none => simp [handleAnalyze] at h
      | some j =>
          rcases hdec : decodeAnalyseRequest j with _ | req
          · simp [handleAnalyze, hdec] at h
          · by_cases ht : req.text = ""
            · simp [handleAnalyze, hdec, ht] at h
            · simp [handleAnalyze, hdec, ht, aggregateAnalysis] at h
    · simp [handleAnalyze, hm] at h
  · intro transport
    have hdec : decodeAnalyseRequest (Json.obj [("text", Json.str text)]) =
        some { text := text } := by
      simp [decodeAnalyseRequest, lookupLast]
    simp [handleAnalyze, hdec, htext, aggregateAnalysis]
  · intro outcome hfail
    have hok : ∀ d, okValue (outcome d) = none := fun d => by
      rcases hfail d with ⟨e, he⟩; simp [okValue, he]
    have hmem : Dep.normalizer ∈ order := horder.mem_iff.mpr (by simp [depOrder])
    have hne : order.filterMap (errOf outcome) ≠ [] := by
      intro hnil
      have h0 := List.filterMap_eq_nil_iff.mp hnil Dep.normalizer hmem
      rcases hfail Dep.normalizer with ⟨e, he⟩
      simp [errOf, he] at h0
    have hie : (order.filterMap (errOf outcome)).isEmpty = false :=
      List.isEmpty_eq_false.mpr hne
    simp only [aggregateAnalysis_spec text outcome horder]
    simp [hok, hie, initResponse]

theorem orchestration_never_fails_witness :
    (aggregateAnalysis "a" depOrder (fun _ => .error .transport)).1 =
      { initResponse "a" with degraded := true } ∧
    (aggregateAnalysis "a" depOrder (fun _ => .error .transport)).2 = none := by
  have h := orchestration_never_fails "a" (by decide) (fun _ => "")
    (List.Perm.refl depOrder)
  exact ⟨h.2.2.2 (fun _ => .error .transport) (fun d => ⟨.transport, rfl⟩),
         h.1 (fun _ => .error .transport)⟩

/-- C8: A tokenizer result carrying a JSON number `q` makes the `tokens`
field `q` truncated to an integer — truncation toward zero, as Go's
`int(float64)` conversion — while a non-number tokenizer value leaves
`tokens` at 0. -/
theorem tokenizer_number_truncated (text : String) {order : List Dep}
    (horder : order.Perm depOrder)
    (outcome : Dep → Except CallError OpResponse) (k : String) (c : Bool) :
    (∀ q : ℚ,
        outcome .tokenizer = .ok { key := k, value := .num q, cacheHit := c } →
        (aggregateAnalysis text order outcome).1.tokens = goInt q) ∧
    (∀ v : Json, asNum v = none →
        outcome .tokenizer = .ok { key := k, value := v, cacheHit := c } →
        (aggregateAnalysis text order outcome).1.tokens = 0) ∧
    (∀ q : ℚ, goInt q = if 0 ≤ q then ⌊q⌋ else ⌈q⌉) := by
  refine ⟨?_, ?_, goInt_trunc⟩
  · intro q h
    simp only [aggregateAnalysis_spec text outcome horder]
    simp [okValue, h, asNum]
  · intro v hv h
    simp only [aggregateAnalysis_spec text outcome horder]
    simp [okValue, h, hv]

theorem tokenizer_number_truncated_witness :
    (aggregateAnalysis "hi" depOrder
      (fun d => if d = Dep.tokenizer
        then .ok { key := "tokens", value := Json.num (7 / 2), cacheHit := false }
        else .error .transport)).1.tokens = goInt (7 / 2) :=
  (tokenizer_number_truncated "hi" (List.Perm.refl depOrder)
    (fun d => if d = Dep.tokenizer
      then .ok { key := "tokens", value := Json.num (7 / 2), cacheHit := false }
      else .error .transport) "tokens" false).1 (7 / 2) (by simp)

/-- C10: When the counter delivers a JSON object, its three target fields
are assembled independently: each of `unique_words`, `bigram_count`,
`unique_chars` is set exactly when the object has a numeric member of
that name (truncated to an integer), a missing or non-numeric member
leaves only that field at 0, and no error is ever recorded for the
counter. -/
theorem counter_fields_independent (text : String) {order : List Dep}
    (horder : order.Perm depOrder)
    (outcome : Dep → Except CallError OpResponse) (k : String) (c : Bool)
    (fields : List (String × Json))
    (hcounter : outcome .counter =
      .ok { key := k, value := .obj fields, cacheHit := c }) :
    (aggregateAnalysis text order outcome).1.unique_words =
      (((lookupLast fields "unique_words").bind asNum).map goInt).getD 0 ∧
    (aggregateAnalysis text order outcome).1.bigram_count =
      (((lookupLast fields "bigram_count").bind asNum).map goInt).getD 0 ∧
    (aggregateAnalysis text order outcome).1.unique_chars =
      (((lookupLast fields "unique_chars").bind asNum).map goInt).getD 0 ∧
    ∀ p ∈ (runMerges outcome order text).2, p.1 ≠ Dep.counter := by
  refine ⟨?_, ?_, ?_, ?_⟩
  · simp only [aggregateAnalysis_spec text outcome horder]
    simp [okValue, hcounter, asObj]
  · simp only [aggregateAnalysis_spec text outcome horder]
    simp [okValue, hcounter, asObj]
  · simp only [aggregateAnalysis_spec text outcome horder]
    simp [okValue, hcounter, asObj]
  · intro p hp
    rw [runMerges_decompose] at hp
    rcases List.mem_filterMap.mp hp with ⟨a, ha, hfa⟩
    rcases hoa : outcome a with e | resp
    · have hp2 : p = (a, e) := by
        simpa [errOf, hoa] using hfa.symm
      subst hp2
      intro hpc
      simp only at hpc
      subst hpc
      rw [hcounter] at hoa
      exact Except.noConfusion hoa
    · simp [errOf, hoa] at hfa

theorem counter_fields_independent_witness :
    (aggregateAnalysis "hey" depOrder
      (fun d => if d = Dep.counter
        then .ok { key := "counts",
                   value := Json.obj [("unique_words", Json.num 6),
                                      ("bigram_count", Json.str "x")],
                   cacheHit := false }
        else .error .transport)).1.unique_words =
      (((lookupLast [("unique_words", Json.num 6), ("bigram_count", Json.str "x")]
          "unique_words").bind asNum).map goInt).getD 0 :=
  (counter_fields_independent "hey" (List.Perm.refl depOrder)
    (fun d => if d = Dep.counter
      then .ok { key := "counts",
                 value := Json.obj [("unique_words", Json.num 6),
                                    ("bigram_count", Json.str "x")],
                 cacheHit := false }
      else .error .transport) "counts" false
    [("unique_words", Json.num 6), ("bigram_count", Json.str "x")] (by simp)).1
